import Mathlib

/-!
Verification of the markdown-to-confluence converter (`convert.py`).

The development shallowly embeds the two components of the repository:

* the front-matter splitter `parse`, modelled as a fold over the lines of the
  document (Python `readlines` is modelled by `pyReadlines`);
* the `ConfluenceRenderer` callbacks (`heading`, `image`, `link`,
  `block_quote`, `block_code`, `block_mermaid`, `render_authors`, `layout`),
  modelled as functions over an explicit `RenderState` record that mirrors the
  mutable fields of the Python object (`attachments`, `authors`, `has_toc`,
  `top_heading`).

Library functions used by the source (`urllib.parse.urlparse`,
`os.path.basename`, `str.replace`, `str.count`, `str.strip`, `json.dumps`,
`base64.b64encode`, and the defaults of `mistune.HTMLRenderer`) are embedded
faithfully for the fragments the source exercises; each such definition carries
a comment naming the function it models.
-/

namespace MdToConf

/-- Python `str.replace` on character lists (non-overlapping, left to right).
The pattern is always non-empty at every use site in the source. The first
argument is fuel for structural recursion; every step consumes at least one
character, so fuel equal to the list length is enough and the fallthrough
case is never reached at the use sites. -/
def replaceList (pat repl : List Char) : Nat → List Char → List Char
  | _, [] => []
  | 0, l => l
  | fuel + 1, c :: rest =>
    if pat.isPrefixOf (c :: rest) then
      repl ++ replaceList pat repl fuel (List.drop (pat.length - 1) rest)
    else
      c :: replaceList pat repl fuel rest

/-- Python `str.count` on character lists (non-overlapping occurrences),
with fuel as in `replaceList`. -/
def countList (pat : List Char) : Nat → List Char → Nat
  | _, [] => 0
  | 0, _ => 0
  | fuel + 1, c :: rest =>
    if pat.isPrefixOf (c :: rest) then
      1 + countList pat fuel (List.drop (pat.length - 1) rest)
    else
      countList pat fuel rest

/-- Python `str.replace`. -/
def pyReplace (s pat repl : String) : String :=
  ⟨replaceList pat.data repl.data s.data.length s.data⟩

/-- Python `str.count`. -/
def pyCount (s pat : String) : Nat :=
  countList pat.data s.data.length s.data

/-- The characters stripped by Python `str.strip()`. -/
def pyIsSpace (c : Char) : Bool :=
  c = ' ' || c = '\t' || c = '\n' || c = '\r' || c = '\x0b' || c = '\x0c'

/-- Python `str.strip()` with no argument. -/
def pyStrip (s : String) : String :=
  ⟨((s.data.dropWhile pyIsSpace).reverse.dropWhile pyIsSpace).reverse⟩

/-- Python `str.lower` (ASCII fragment, enough for URL schemes). -/
def pyLower (s : String) : String :=
  ⟨s.data.map Char.toLower⟩

/-- Python `os.path.basename` for POSIX paths: the part after the last slash. -/
def basename (p : String) : String :=
  ⟨(p.data.reverse.takeWhile (fun c => c ≠ '/')).reverse⟩

/-- Characters allowed in a URL scheme by `urllib.parse`
(ASCII letters, digits, `+`, `-`, `.`). -/
def schemeChar (c : Char) : Bool :=
  c.isAlpha || c.isDigit || c = '+' || c = '-' || c = '.'

/-- Modelled from `urllib.parse.urlsplit`: tab, carriage return and newline
are removed from the URL before parsing. -/
def removeUrlUnsafe (l : List Char) : List Char :=
  l.filter (fun c => c ≠ '\t' && c ≠ '\r' && c ≠ '\n')

/-- Modelled from `urllib.parse.urlsplit`: leading C0 control characters and
spaces are stripped from the URL. -/
def lstripControl (l : List Char) : List Char :=
  l.dropWhile (fun c => c.toNat ≤ 0x20)

/-- Modelled from `urllib.parse.urlsplit`: if the URL starts with
`<scheme>:` where the scheme begins with an ASCII letter and consists of
scheme characters, the scheme and the colon are removed. -/
def dropScheme (l : List Char) : List Char :=
  let pre := l.takeWhile (fun c => c ≠ ':')
  if pre.length < l.length ∧ 0 < pre.length ∧
      (pre.headD '0').isAlpha ∧ pre.all schemeChar then
    l.drop (pre.length + 1)
  else
    l

/-- Modelled from `urllib.parse.urlsplit`: the network-location component is
present exactly when the URL (after scheme removal) starts with `//`; it
extends up to the first `/`, `?` or `#`. -/
def netlocList (l : List Char) : List Char :=
  match dropScheme (removeUrlUnsafe (lstripControl l)) with
  | '/' :: '/' :: rest => rest.takeWhile (fun c => c ≠ '/' && c ≠ '?' && c ≠ '#')
  | _ => []

/-- The value `urlparse(url).netloc` as used by the source to classify URLs. -/
def netloc (url : String) : String :=
  ⟨netlocList url.data⟩

/-- Modelled from `mistune.util.escape` (with `quote=True`): HTML-escapes
`&`, `<`, `>` and the double quote, in that order. -/
def mistuneEscape (s : String) : String :=
  pyReplace (pyReplace (pyReplace (pyReplace s "&" "&amp;") "<" "&lt;") ">" "&gt;") "\"" "&quot;"

/-- Modelled from `mistune.HTMLRenderer._safe_url`: harmful protocols are
replaced by a fixed fragment. -/
def safeUrl (url : String) : String :=
  if ("javascript:").data.isPrefixOf (pyLower url).data
      || ("vbscript:").data.isPrefixOf (pyLower url).data
      || ("data:").data.isPrefixOf (pyLower url).data then
    "#harmful-link"
  else
    url

/-- Modelled from `mistune.HTMLRenderer.text` with the default `escape=True`:
plain text is HTML-escaped. -/
def mistuneText (text : String) : String :=
  mistuneEscape text

/-- Modelled from `mistune.HTMLRenderer.heading`: the default heading
rendering for a given level. -/
def mistuneHeading (text : String) (level : Nat) : String :=
  "<h" ++ toString level ++ ">" ++ text ++ "</h" ++ toString level ++ ">\n"

/-- Modelled from `mistune.HTMLRenderer.block_quote`: the default blockquote
wrapping. -/
def mistuneBlockQuote (text : String) : String :=
  "<blockquote>\n" ++ text ++ "</blockquote>\n"

/-- Modelled from `mistune.HTMLRenderer.link` (signature
`link(self, link, text=None, title=None)`): the default anchor rendering.
An empty `text` falls back to the link target; a non-empty `title` becomes a
`title` attribute. -/
def mistuneLink (link text title : String) : String :=
  "<a href=\"" ++ safeUrl link ++ "\""
    ++ (if title ≠ "" then " title=\"" ++ mistuneEscape title ++ "\"" else "")
    ++ ">" ++ (if text ≠ "" then text else link) ++ "</a>"

/-- The mutable fields of a `ConfluenceRenderer` instance. -/
structure RenderState where
  attachments : List String
  authors : List String
  has_toc : Bool
  top_heading : Option String
deriving DecidableEq, Repr

/-- Source `ConfluenceRenderer.__init__`: `authors` defaults to the empty list and a
`None` argument is normalized to the empty list. -/
def ConfluenceRenderer.init (authors : Option (List String)) : RenderState :=
  { attachments := [], authors := authors.getD [], has_toc := false, top_heading := none }

/-- Source `ConfluenceRenderer.image`: external images (non-empty `netloc`) become a
`ri:url` reference; internal images become a `ri:attachment` reference named
by the basename and the full path is appended to `attachments`. -/
def ConfluenceRenderer.image (src title alt_text : String) (st : RenderState) :
    String × RenderState :=
  let is_external := netloc src ≠ ""
  if is_external then
    ("<ac:image>" ++ ("<ri:url ri:value=\"" ++ src ++ "\" />") ++ "</ac:image>", st)
  else
    ("<ac:image>" ++ ("<ri:attachment ri:filename=\"" ++ basename src ++ "\" />") ++ "</ac:image>",
      { st with attachments := st.attachments ++ [src] })

/-- Source `ConfluenceRenderer.heading`: sets `has_toc`; the first level-1 heading is
captured as `top_heading` and suppressed from the body, all other headings
delegate to the default rendering. -/
def ConfluenceRenderer.heading (text : String) (level : Nat) (st : RenderState) :
    String × RenderState :=
  let st := { st with has_toc := true }
  if st.top_heading = none ∧ level = 1 then
    ("", { st with top_heading := some text })
  else
    (mistuneHeading text level, st)

/-- Source `ConfluenceRenderer.render_authors`: one profile-picture macro plus one
user link per author key, joined by `<br />`, inside a paragraph under an
`Authors` heading. -/
def ConfluenceRenderer.author_template (user_key : String) : String :=
  "<ac:structured-macro ac:name=\"profile-picture\" ac:schema-version=\"1\">\n                <ac:parameter ac:name=\"User\"><ri:user ri:userkey=\""
    ++ user_key
    ++ "\" /></ac:parameter>\n            </ac:structured-macro>&nbsp;\n            <ac:link><ri:user ri:userkey=\""
    ++ user_key ++ "\" /></ac:link>"

/-- Source `ConfluenceRenderer.render_authors`. -/
def ConfluenceRenderer.render_authors (authors : List String) : String :=
  "<h1>Authors</h1><p>"
    ++ String.intercalate "<br />" (authors.map ConfluenceRenderer.author_template)
    ++ "</p>"

/-- The hexadecimal digits used by Python `%04x` formatting. -/
def hexDigit (n : Nat) : Char :=
  "0123456789abcdef".data.getD n '0'

/-- Python `'%04x' % n` for `n < 0x10000`. -/
def hex4 (n : Nat) : String :=
  ⟨[hexDigit (n / 4096 % 16), hexDigit (n / 256 % 16), hexDigit (n / 16 % 16), hexDigit (n % 16)]⟩

/-- Modelled from `json.encoder` with the default `ensure_ascii=True`: how one
character of a JSON string is serialized. -/
def jsonEscapeChar (c : Char) : String :=
  let n := c.toNat
  if c = '"' then "\\\""
  else if c = '\\' then "\\\\"
  else if 0x20 ≤ n ∧ n ≤ 0x7e then ⟨[c]⟩
  else if c = '\n' then "\\n"
  else if c = '\r' then "\\r"
  else if c = '\t' then "\\t"
  else if n = 8 then "\\b"
  else if n = 12 then "\\f"
  else if n < 0x10000 then "\\u" ++ hex4 n
  else
    "\\u" ++ hex4 (0xd800 + (n - 0x10000) / 0x400)
      ++ "\\u" ++ hex4 (0xdc00 + (n - 0x10000) % 0x400)

/-- Modelled from `json.dumps` on a string value. -/
def pyJsonStr (s : String) : String :=
  "\"" ++ String.join (s.data.map jsonEscapeChar) ++ "\""

/-- Python `json.dumps({ "code": code, "mermaid": { "theme": "default" } })` with the
default separators. -/
def mermaidPayload (code : String) : String :=
  "\x7b\"code\": " ++ pyJsonStr code ++ ", \"mermaid\": \x7b\"theme\": \"default\"\x7d\x7d"

/-- UTF-8 encoding of one code point, as `str.encode()` produces. -/
def utf8Char (n : Nat) : List Nat :=
  if n < 0x80 then [n]
  else if n < 0x800 then [0xc0 + n / 64, 0x80 + n % 64]
  else if n < 0x10000 then [0xe0 + n / 4096, 0x80 + n / 64 % 64, 0x80 + n % 64]
  else [0xf0 + n / 0x40000, 0x80 + n / 4096 % 64, 0x80 + n / 64 % 64, 0x80 + n % 64]

/-- Python `str.encode()`: the UTF-8 bytes of a string. -/
def utf8Bytes (s : String) : List Nat :=
  (s.data.map (fun c => utf8Char c.toNat)).join

/-- The base64 alphabet used by `base64.b64encode`. -/
def b64Digit (n : Nat) : Char :=
  "ABCDEFGHIJKLMNOPQRSTUVWXYZabcdefghijklmnopqrstuvwxyz0123456789+/".data.getD n 'A'

/-- Python `base64.b64encode` on a byte list, with `=` padding. -/
def b64encodeList : List Nat → List Char
  | [] => []
  | [a] => [b64Digit (a / 4), b64Digit (a % 4 * 16), '=', '=']
  | [a, b] => [b64Digit (a / 4), b64Digit (a % 4 * 16 + b / 16), b64Digit (b % 16 * 4), '=']
  | a :: b :: c :: rest =>
    b64Digit (a / 4) :: b64Digit (a % 4 * 16 + b / 16)
      :: b64Digit (b % 16 * 4 + c / 64) :: b64Digit (c % 64) :: b64encodeList rest

/-- Python `base64.b64encode` returning a string. -/
def b64encode (bytes : List Nat) : String :=
  ⟨b64encodeList bytes⟩

/-- Source `ConfluenceRenderer.block_mermaid`: serialize the payload as JSON, base64
the UTF-8 bytes, and emit an external image pointing at `mermaid.ink`. -/
def ConfluenceRenderer.block_mermaid (code : String) : String :=
  let data := b64encode (utf8Bytes (mermaidPayload code))
  let src := "https://mermaid.ink/img/" ++ data
  "<ac:image>" ++ ("<ri:url ri:value=\"" ++ src ++ "\" />") ++ "</ac:image>"

/-- Source `ConfluenceRenderer.block_quote`: if the content holds exactly one `</p>`
substring, all `<p>` and `</p>` substrings are removed; the result is wrapped
by the default blockquote rendering. -/
def ConfluenceRenderer.block_quote (content : String) : String :=
  let stripped :=
    if pyCount content "</p>" = 1 then
      pyReplace (pyReplace content "<p>" "") "</p>" ""
    else
      content
  mistuneBlockQuote stripped

/-- Source `ConfluenceRenderer.block_code`: `mermaid` blocks go to the diagram
renderer; all other languages become a code macro with a CDATA body. -/
def ConfluenceRenderer.block_code (code : String) (lang : Option String) : String :=
  if lang = some "mermaid" then
    ConfluenceRenderer.block_mermaid code
  else
    "<ac:structured-macro ac:name=\"code\" ac:schema-version=\"1\">\n    <ac:parameter ac:name=\"language\">"
      ++ (match lang with | some l => l | none => "")
      ++ "</ac:parameter>\n    <ac:plain-text-body><![CDATA["
      ++ code
      ++ "]]></ac:plain-text-body>\n</ac:structured-macro>\n"

/-- Source `ConfluenceRenderer.link`: external links delegate to the default anchor
renderer (arguments passed positionally as in the source); internal links are
degraded to the default plain-text rendering of `content`. -/
def ConfluenceRenderer.link (link title content : String) : String :=
  let is_external := netloc link ≠ ""
  if is_external then
    mistuneLink link title content
  else
    mistuneText content

/-- The dedented table-of-contents fragment built by
`ConfluenceRenderer.layout`. -/
def ConfluenceRenderer.toc_fragment : String :=
  "\n<h1>Table of Contents</h1>\n<p><ac:structured-macro ac:name=\"toc\" ac:schema-version=\"1\">\n    <ac:parameter ac:name=\"exclude\">^(Authors|Table of Contents)$</ac:parameter>\n</ac:structured-macro></p>"

/-- The dedented column macro template of `ConfluenceRenderer.layout`, with
`width` and `content` substituted. -/
def ConfluenceRenderer.column (width content : String) : String :=
  "\n<ac:structured-macro ac:name=\"column\" ac:schema-version=\"1\">\n    <ac:parameter ac:name=\"width\">"
    ++ width
    ++ "</ac:parameter>\n    <ac:rich-text-body>"
    ++ content
    ++ "</ac:rich-text-body>\n</ac:structured-macro>"

/-- Source `ConfluenceRenderer.layout`: a 30%-wide sidebar column (TOC fragment, only
when `has_toc`, followed by the authors fragment) concatenated with an
800px-wide content column. -/
def ConfluenceRenderer.layout (content : String) (st : RenderState) : String :=
  let toc := if st.has_toc then ConfluenceRenderer.toc_fragment else ""
  let authors := ConfluenceRenderer.render_authors st.authors
  let sidebar := ConfluenceRenderer.column "30%" (toc ++ authors)
  let main_content := ConfluenceRenderer.column "800px" content
  sidebar ++ main_content

/-- One renderer callback invocation performed by the Markdown engine during
its document-order traversal, with the arguments the source receives. -/
inductive Event where
  | heading (text : String) (level : Nat)
  | image (src title alt_text : String)
  | link (href title content : String)
  | block_quote (content : String)
  | block_code (code : String) (lang : Option String)
deriving DecidableEq, Repr

/-- Dispatch of one engine callback to the renderer; callbacks that do not
assign renderer fields in the source leave the state unchanged. -/
def runEvent (e : Event) (st : RenderState) : String × RenderState :=
  match e with
  | .heading t l => ConfluenceRenderer.heading t l st
  | .image s t a => ConfluenceRenderer.image s t a st
  | .link h t c => (ConfluenceRenderer.link h t c, st)
  | .block_quote c => (ConfluenceRenderer.block_quote c, st)
  | .block_code c l => (ConfluenceRenderer.block_code c l, st)

/-- The engine's single forward pass: the rendered fragments are concatenated
and the renderer state is threaded through. -/
def runEvents : List Event → RenderState → String × RenderState
  | [], st => ("", st)
  | e :: rest, st =>
    let r := runEvent e st
    let r2 := runEvents rest r.2
    (r.1 ++ r2.1, r2.2)

/-- The front-matter keys consumed by `convtoconf`; `none` marks an absent
key. -/
structure FrontMatter where
  title : Option String
  author_keys : Option (List String)
deriving DecidableEq, Repr

/-- The empty front-matter mapping. -/
def FrontMatter.empty : FrontMatter :=
  { title := none, author_keys := none }

/-- Source `convtoconf`: the Markdown engine is modelled abstractly as the
document-order sequence of renderer callbacks it performs on the body. A
`none` front matter is normalized to the empty mapping; the renderer is seeded
with `author_keys` (default empty); the result is the rendered body, the
collected attachments, and the title (the front matter's `title` if the key
is present, else the captured `top_heading`). -/
def convtoconf (body : List Event) (front_matter : Option FrontMatter) :
    String × List String × Option String :=
  let fm := front_matter.getD FrontMatter.empty
  let author_keys := fm.author_keys.getD []
  let st0 := ConfluenceRenderer.init (some author_keys)
  let res := runEvents body st0
  let title :=
    match fm.title with
    | some t => some t
    | none => res.2.top_heading
  (res.1, res.2.attachments, title)

/-- Python `file.readlines` on already-read text: splits after each newline,
keeping the newline at the end of each line; a final segment without a
newline forms a last line. -/
def pyReadlinesAux (acc : List Char) : List Char → List (List Char)
  | [] => if acc.isEmpty then [] else [acc.reverse]
  | c :: rest =>
    if c = '\n' then
      (acc.reverse ++ ['\n']) :: pyReadlinesAux [] rest
    else
      pyReadlinesAux (c :: acc) rest

/-- Python `file.readlines` on the document text. -/
def pyReadlines (s : String) : List String :=
  (pyReadlinesAux [] s.data).map (fun l => (⟨l⟩ : String))

/-- The loop state of `parse`: the front-matter buffer, the body buffer and
the `in_yaml` flag. -/
structure SplitState where
  raw_yaml : String
  markdown : String
  in_yaml : Bool
deriving DecidableEq, Repr

/-- The boundary token of the splitter. -/
def YAML_BOUNDARY : String := "---"

/-- One iteration of the line loop of `parse`: a line stripping to the
boundary closes the front matter only when `in_yaml` holds and the
front-matter buffer is non-empty (the closing line is discarded); otherwise
the line is appended to the front-matter buffer or to the body buffer
according to `in_yaml`. -/
def parseLine (st : SplitState) (line : String) : SplitState :=
  if pyStrip line = YAML_BOUNDARY ∧ st.in_yaml = true ∧ st.raw_yaml ≠ "" then
    { st with in_yaml := false }
  else if st.in_yaml then
    { st with raw_yaml := st.raw_yaml ++ line }
  else
    { st with markdown := st.markdown ++ line }

/-- The line loop of `parse` over the whole document. -/
def splitDoc (doc : String) : SplitState :=
  (pyReadlines doc).foldl parseLine { raw_yaml := "", markdown := "", in_yaml := true }

/-- Splits `key: value` on the first colon, stripping both parts. -/
def splitKV (l : String) : String × String :=
  let k := l.data.takeWhile (fun c => c ≠ ':')
  let v := l.data.drop (k.length + 1)
  (pyStrip ⟨k⟩, pyStrip ⟨v⟩)

/-- Modelled from the spec: `yaml.load` with the safe loader (the `yaml`
library is not part of this repository). Restricted to flat mappings of
scalar values, which is all the claims exercise: blank lines are ignored, a
leading document-start marker line `---` is skipped, and a document with no
remaining content decodes to `none` (YAML null); otherwise each line is a
`key: value` pair. -/
def yamlLoad (s : String) : Option (List (String × String)) :=
  let ls := ((pyReadlines s).map pyStrip).filter (fun l => l ≠ "")
  let ls2 := if ls.headD "" = "---" then ls.tail else ls
  if ls2.isEmpty then none else some (ls2.map splitKV)

/-- Source `parse`: splits the document into front matter and body, decodes the
front matter as YAML, and strips the body. -/
def parse (post : String) : Option (List (String × String)) × String :=
  let st := splitDoc post
  (yamlLoad st.raw_yaml, pyStrip st.markdown)

/-- A document with no leading boundary marker: the YAML block, the closing
boundary, the body. -/
def mkDoc0 (y b : String) : String :=
  y ++ ("---\n" ++ b)

/-- A document with one leading boundary marker before the YAML block. -/
def mkDoc1 (y b : String) : String :=
  "---\n" ++ (y ++ ("---\n" ++ b))

/-- A document with two leading boundary markers before the YAML block. -/
def mkDoc2 (y b : String) : String :=
  "---\n" ++ ("---\n" ++ (y ++ ("---\n" ++ b)))

/-- Concatenation of a list of strings (how the accumulated buffers relate to
the lines consumed). -/
def concatStr : List String → String
  | [] => ""
  | s :: rest => s ++ concatStr rest

/-- Spec-side helper for C2 and C3: the text of the first level-1 heading of
an event sequence, if any. -/
def firstTopHeading : List Event → Option String
  | [] => none
  | .heading t l :: rest => if l = 1 then some t else firstTopHeading rest
  | _ :: rest => firstTopHeading rest

/-- Spec-side helper for C2: the text of the first level-1 heading in a list
of heading calls. -/
def firstH1 : List (String × Nat) → Option String
  | [] => none
  | (t, l) :: rest => if l = 1 then some t else firstH1 rest

/-- A sequence of heading calls in document order, collecting the rendered
outputs. -/
def runHeadings : List (String × Nat) → RenderState → List String × RenderState
  | [], st => ([], st)
  | (t, l) :: rest, st =>
    let r := ConfluenceRenderer.heading t l st
    let r2 := runHeadings rest r.2
    (r.1 :: r2.1, r2.2)

/-- Spec-side definition for C2, following the claim's words: the first
level-1 call (while no top heading has been captured, tracked by the flag)
returns the empty string, every other call returns the default heading
rendering for its level. -/
def specHeadingOutputs : List (String × Nat) → Bool → List String
  | [], _ => []
  | (t, l) :: rest, captured =>
    if l = 1 ∧ captured = false then
      "" :: specHeadingOutputs rest true
    else
      mistuneHeading t l :: specHeadingOutputs rest captured

end MdToConf

namespace MdToConf

/-- C1: `renderImage` classifies `src` by the network-location component of
its URL parse; external images yield a `ri:url` fragment with `src` verbatim
and leave `attachments` unchanged; internal images yield a `ri:attachment`
fragment named by the basename of `src` and append `src` to the end of
`attachments`. -/
theorem C1_renderImage (src title alt_text : String) (st : RenderState) :
    (netloc src ≠ "" →
      ConfluenceRenderer.image src title alt_text st =
        ("<ac:image>" ++ ("<ri:url ri:value=\"" ++ src ++ "\" />") ++ "</ac:image>", st)) ∧
    (netloc src = "" →
      ConfluenceRenderer.image src title alt_text st =
        ("<ac:image>" ++ ("<ri:attachment ri:filename=\"" ++ basename src ++ "\" />")
            ++ "</ac:image>",
          { st with attachments := st.attachments ++ [src] })) := by
  constructor
  · intro h
    simp [ConfluenceRenderer.image, h]
  · intro h
    simp [ConfluenceRenderer.image, h]

/-- C1 witness: on a fresh renderer, the internal image path
`/images/example.png` yields an attachment fragment naming `example.png` and
the attachment list becomes exactly `[/images/example.png]`. -/
theorem C1_renderImage_witness :
    ConfluenceRenderer.image "/images/example.png" "" "" (ConfluenceRenderer.init none) =
      ("<ac:image><ri:attachment ri:filename=\"example.png\" /></ac:image>",
        { attachments := ["/images/example.png"], authors := [],
          has_toc := false, top_heading := none }) := by
  have h := (C1_renderImage "/images/example.png" "" "" (ConfluenceRenderer.init none)).2
    (by decide)
  exact h.trans (by decide)

lemma str_ext {a b : String} (h : a.data = b.data) : a = b :=
  congrArg String.mk h

lemma str_data_append (a b : String) : (a ++ b).data = a.data ++ b.data := by
  cases a
  cases b
  rfl

lemma str_data_empty : ("" : String).data = [] := rfl

lemma str_append_assoc (a b c : String) : a ++ b ++ c = a ++ (b ++ c) := by
  apply str_ext
  simp [str_data_append]

lemma str_empty_append (s : String) : "" ++ s = s := by
  apply str_ext
  simp [str_data_append, str_data_empty]

lemma str_ne_empty_append (a b : String) (h : a ≠ "") : a ++ b ≠ "" := by
  intro he
  apply h
  have hd : a.data ++ b.data = ([] : List Char) := by
    simpa [str_data_append, str_data_empty] using congrArg String.data he
  apply str_ext
  rw [str_data_empty, (List.append_eq_nil.mp hd).1]

/-- C5: during the line scan, a `---` line closes the front matter exactly
when the flag is up and the front-matter buffer is non-empty (in the source
the guard is the truthiness of `raw_yaml`; the buffer is non-empty iff at
least one line has been accumulated, since every line produced by `readlines`
is non-empty); the closing line is discarded from both buffers; a `---` line
arriving while the buffer is still empty is absorbed into the front-matter
buffer; and once the flag is down every line is appended verbatim to the body
buffer. -/
theorem C5_boundaryHandling (st : SplitState) (l : String) :
    (st.in_yaml = true → pyStrip l = YAML_BOUNDARY →
      ((st.raw_yaml ≠ "" → parseLine st l = { st with in_yaml := false }) ∧
       (st.raw_yaml = "" → parseLine st l = { st with raw_yaml := st.raw_yaml ++ l }))) ∧
    ((parseLine st l).in_yaml = false ↔
      (st.in_yaml = false ∨ (pyStrip l = YAML_BOUNDARY ∧ st.raw_yaml ≠ ""))) ∧
    (st.in_yaml = false → parseLine st l = { st with markdown := st.markdown ++ l }) := by
  obtain ⟨ry, md, iy⟩ := st
  by_cases hb : pyStrip l = YAML_BOUNDARY <;>
    by_cases hr : ry = "" <;>
      cases iy <;>
        simp [parseLine, hb, hr]

/-- C5 witness: a boundary line with a non-empty front-matter buffer closes
the front matter and is discarded. -/
theorem C5_boundaryHandling_witness :
    parseLine { raw_yaml := "a\n", markdown := "", in_yaml := true } "---\n" =
      { raw_yaml := "a\n", markdown := "", in_yaml := false } := by
  have h := (C5_boundaryHandling { raw_yaml := "a\n", markdown := "", in_yaml := true } "---\n").1
    rfl (by decide)
  exact h.1 (by decide)

/-- C6 counterexample: `X</p>` contains zero opening paragraph tags and one
closing paragraph tag, so the claim's condition (exactly one opening and one
closing tag) fails and the claim predicts the content is wrapped unmodified;
the code nevertheless strips the closing tag, because it only counts `</p>`
occurrences. -/
theorem C6_blockQuote_counterexample :
    pyCount "X</p>" "<p>" = 0 ∧ pyCount "X</p>" "</p>" = 1 ∧
    ConfluenceRenderer.block_quote "X</p>" = "<blockquote>\nX</blockquote>\n" ∧
    ConfluenceRenderer.block_quote "X</p>" ≠ "<blockquote>\nX</p></blockquote>\n" := by
  decide

/-- C6 amended: the stripping condition is that `innerHtml` contains exactly
one closing paragraph tag `</p>` (the number of opening tags is not
examined), and when it holds every `<p>` and every `</p>` substring is
removed (not just a single wrapper pair) before wrapping in the blockquote;
otherwise the content is wrapped unmodified. -/
theorem C6_blockQuote (innerHtml : String) :
    (pyCount innerHtml "</p>" = 1 →
      ConfluenceRenderer.block_quote innerHtml =
        mistuneBlockQuote (pyReplace (pyReplace innerHtml "<p>" "") "</p>" "")) ∧
    (pyCount innerHtml "</p>" ≠ 1 →
      ConfluenceRenderer.block_quote innerHtml = mistuneBlockQuote innerHtml) := by
  constructor <;> intro h <;> simp [ConfluenceRenderer.block_quote, h]

/-- C6 witness: the claim's two concrete examples, which the amended claim
preserves: a single-paragraph quote is unwrapped, a two-paragraph quote is
kept intact. -/
theorem C6_blockQuote_witness :
    ConfluenceRenderer.block_quote "<p>X</p>" = "<blockquote>\nX</blockquote>\n" ∧
    ConfluenceRenderer.block_quote "<p>A</p><p>B</p>" =
      "<blockquote>\n<p>A</p><p>B</p></blockquote>\n" := by
  constructor
  · exact ((C6_blockQuote "<p>X</p>").1 (by decide)).trans (by decide)
  · exact ((C6_blockQuote "<p>A</p><p>B</p>").2 (by decide)).trans (by decide)

set_option maxRecDepth 100000 in
/-- C7: the diagram renderer is a pure function of `code`: it leaves the
renderer state untouched, and its output is the image fragment whose URL is
`https://mermaid.ink/img/` followed by the base64 encoding of the UTF-8 bytes
of the JSON serialization of `{code: code, mermaid: {theme: "default"}}`.
The closed conjunct evaluates it on the repository's own test diagram,
pinning the output bytes exactly. -/
theorem C7_renderDiagram (code : String) (st : RenderState) :
    runEvent (.block_code code (some "mermaid")) st =
      (ConfluenceRenderer.block_mermaid code, st) ∧
    ConfluenceRenderer.block_mermaid code =
      "<ac:image>"
        ++ ("<ri:url ri:value=\""
              ++ ("https://mermaid.ink/img/" ++ b64encode (utf8Bytes (mermaidPayload code)))
              ++ "\" />")
        ++ "</ac:image>" ∧
    ConfluenceRenderer.block_mermaid
        "graph TD\n    A[Holiday] -->|Get money| B(Go shopping)\n    B --> C\x7bLet me think\x7d\n    C -->|One| D[Laptop]\n    C -->|Two| E[iPhone]\n    C -->|Three| F[fa:fa-car Car]\n        " =
      "<ac:image><ri:url ri:value=\"https://mermaid.ink/img/eyJjb2RlIjogImdyYXBoIFREXG4gICAgQVtIb2xpZGF5XSAtLT58R2V0IG1vbmV5fCBCKEdvIHNob3BwaW5nKVxuICAgIEIgLS0+IEN7TGV0IG1lIHRoaW5rfVxuICAgIEMgLS0+fE9uZXwgRFtMYXB0b3BdXG4gICAgQyAtLT58VHdvfCBFW2lQaG9uZV1cbiAgICBDIC0tPnxUaHJlZXwgRltmYTpmYS1jYXIgQ2FyXVxuICAgICAgICAiLCAibWVybWFpZCI6IHsidGhlbWUiOiAiZGVmYXVsdCJ9fQ==\" /></ac:image>" := by
  refine ⟨rfl, rfl, ?_⟩
  decide

/-- C8: `renderLink` preserves external links (non-empty network location) by
delegating to the default anchor rendering, and degrades internal links to
the default plain-text rendering of the inner content, discarding the anchor;
the renderer state is untouched and no error is possible (the embedding is a
total function). -/
theorem C8_renderLink (href title content : String) (st : RenderState) :
    (netloc href ≠ "" →
      runEvent (.link href title content) st = (mistuneLink href title content, st)) ∧
    (netloc href = "" →
      runEvent (.link href title content) st = (mistuneText content, st)) := by
  constructor <;> intro h <;> simp [runEvent, ConfluenceRenderer.link, h]

/-- C8 witness: an internal link degrades to its plain text; an external link
keeps its anchor. -/
theorem C8_renderLink_witness :
    runEvent (.link "/posts/other" "t" "hello") (ConfluenceRenderer.init none) =
      ("hello", ConfluenceRenderer.init none) ∧
    runEvent (.link "https://example.com/x" "text" "") (ConfluenceRenderer.init none) =
      ("<a href=\"https://example.com/x\">text</a>", ConfluenceRenderer.init none) := by
  constructor
  · exact ((C8_renderLink "/posts/other" "t" "hello" (ConfluenceRenderer.init none)).2
      (by decide)).trans (by decide)
  · exact ((C8_renderLink "https://example.com/x" "text" "" (ConfluenceRenderer.init none)).1
      (by decide)).trans (by decide)

/-- C9: the layout is the 30%-wide sidebar column (the table-of-contents
fragment, present exactly when `has_toc`, followed by the authors fragment)
concatenated with the 800px-wide content column, as two sibling macros; the
TOC fragment is the heading plus the toc macro excluding
`^(Authors|Table of Contents)$`; with `has_toc` down the TOC fragment is
empty. -/
theorem C9_renderLayout (content : String) (st : RenderState) :
    ConfluenceRenderer.layout content st =
      ConfluenceRenderer.column "30%"
          ((if st.has_toc then ConfluenceRenderer.toc_fragment else "")
            ++ ConfluenceRenderer.render_authors st.authors)
        ++ ConfluenceRenderer.column "800px" content ∧
    ConfluenceRenderer.toc_fragment =
      "\n<h1>Table of Contents</h1>\n<p><ac:structured-macro ac:name=\"toc\" ac:schema-version=\"1\">\n    <ac:parameter ac:name=\"exclude\">^(Authors|Table of Contents)$</ac:parameter>\n</ac:structured-macro></p>" ∧
    (st.has_toc = false →
      ConfluenceRenderer.layout content st =
        ConfluenceRenderer.column "30%" (ConfluenceRenderer.render_authors st.authors)
          ++ ConfluenceRenderer.column "800px" content) := by
  refine ⟨rfl, rfl, ?_⟩
  intro h
  simp [ConfluenceRenderer.layout, h, str_empty_append]

/-- C9 witness: on a renderer that saw no heading, the sidebar holds only the
authors fragment. -/
theorem C9_renderLayout_witness :
    ConfluenceRenderer.layout "BODY"
        { attachments := [], authors := [], has_toc := false, top_heading := none } =
      ConfluenceRenderer.column "30%" (ConfluenceRenderer.render_authors [])
        ++ ConfluenceRenderer.column "800px" "BODY" :=
  (C9_renderLayout "BODY"
    { attachments := [], authors := [], has_toc := false, top_heading := none }).2.2 rfl

lemma heading_sets_toc (t : String) (l : Nat) (st : RenderState) :
    ((ConfluenceRenderer.heading t l st).2).has_toc = true := by
  cases hx : st.top_heading with
  | none =>
    by_cases hl : l = 1
    · subst hl
      simp [ConfluenceRenderer.heading, hx]
    · simp [ConfluenceRenderer.heading, hx, hl]
  | some x => simp [ConfluenceRenderer.heading, hx]

lemma heading_some (t : String) (l : Nat) (st : RenderState) (x : String)
    (h : st.top_heading = some x) :
    ConfluenceRenderer.heading t l st = (mistuneHeading t l, { st with has_toc := true }) := by
  simp [ConfluenceRenderer.heading, h]

lemma heading_none_one (t : String) (st : RenderState) (h : st.top_heading = none) :
    ConfluenceRenderer.heading t 1 st =
      ("", { st with has_toc := true, top_heading := some t }) := by
  simp [ConfluenceRenderer.heading, h]

lemma heading_none_other (t : String) (l : Nat) (st : RenderState)
    (h : st.top_heading = none) (hl : l ≠ 1) :
    ConfluenceRenderer.heading t l st = (mistuneHeading t l, { st with has_toc := true }) := by
  simp [ConfluenceRenderer.heading, h, hl]

lemma specHeadingOutputs_true (hs : List (String × Nat)) :
    specHeadingOutputs hs true = hs.map (fun p => mistuneHeading p.1 p.2) := by
  induction hs with
  | nil => rfl
  | cons p rest ih =>
    obtain ⟨t, l⟩ := p
    simp [specHeadingOutputs, ih]

lemma runHeadings_some (hs : List (String × Nat)) (st : RenderState) (x : String)
    (h : st.top_heading = some x) :
    (runHeadings hs st).1 = hs.map (fun p => mistuneHeading p.1 p.2) ∧
    (runHeadings hs st).2.top_heading = some x := by
  induction hs generalizing st with
  | nil => simp [runHeadings, h]
  | cons p rest ih =>
    obtain ⟨t, l⟩ := p
    have hrest := ih { st with has_toc := true } (by simpa using h)
    constructor
    · simp [runHeadings, heading_some t l st x h, hrest.1]
    · simp [runHeadings, heading_some t l st x h, hrest.2]

lemma runHeadings_none (hs : List (String × Nat)) (st : RenderState)
    (h : st.top_heading = none) :
    (runHeadings hs st).1 = specHeadingOutputs hs false ∧
    (runHeadings hs st).2.top_heading = firstH1 hs := by
  induction hs generalizing st with
  | nil => simp [runHeadings, specHeadingOutputs, firstH1, h]
  | cons p rest ih =>
    obtain ⟨t, l⟩ := p
    by_cases hl : l = 1
    · subst hl
      have hrest := runHeadings_some rest
        { st with has_toc := true, top_heading := some t } t (by simp)
      constructor
      · simp [runHeadings, heading_none_one t st h, specHeadingOutputs, hrest.1,
          specHeadingOutputs_true]
      · simp [runHeadings, heading_none_one t st h, firstH1, hrest.2]
    · have hrest := ih { st with has_toc := true } (by simpa using h)
      constructor
      · simp [runHeadings, heading_none_other t l st h hl, specHeadingOutputs, hl, hrest.1]
      · simp [runHeadings, heading_none_other t l st h hl, firstH1, hl, hrest.2]

/-- C2: every heading call raises `has_toc`; a sequence of heading calls
starting with no captured top heading renders exactly as the spec-side rule
`specHeadingOutputs` (the first level-1 call returns the empty string, every
other call the default rendering for its level), and the final captured top
heading is the text of the first level-1 call, so it is set at most once. -/
theorem C2_renderHeading (hs : List (String × Nat)) (st : RenderState)
    (h : st.top_heading = none) :
    (∀ t l s2, ((ConfluenceRenderer.heading t l s2).2).has_toc = true) ∧
    (runHeadings hs st).1 = specHeadingOutputs hs false ∧
    (runHeadings hs st).2.top_heading = firstH1 hs :=
  ⟨heading_sets_toc, (runHeadings_none hs st h).1, (runHeadings_none hs st h).2⟩

/-- C2 witness: on a fresh renderer, the first level-1 heading is suppressed
and captured, a level-2 heading and a later level-1 heading render normally,
and the captured top heading stays that of the first level-1 call. -/
theorem C2_renderHeading_witness :
    (runHeadings [("Title", 1), ("Sub", 2), ("Again", 1)] (ConfluenceRenderer.init none)).1 =
      ["", "<h2>Sub</h2>\n", "<h1>Again</h1>\n"] ∧
    (runHeadings [("Title", 1), ("Sub", 2), ("Again", 1)]
        (ConfluenceRenderer.init none)).2.top_heading = some "Title" := by
  have h := C2_renderHeading [("Title", 1), ("Sub", 2), ("Again", 1)]
    (ConfluenceRenderer.init none) rfl
  exact ⟨h.2.1.trans (by decide), h.2.2.trans (by decide)⟩

lemma image_frame (src t a : String) (st : RenderState) :
    ((ConfluenceRenderer.image src t a st).2).has_toc = st.has_toc ∧
    ((ConfluenceRenderer.image src t a st).2).top_heading = st.top_heading ∧
    ((ConfluenceRenderer.image src t a st).2).authors = st.authors ∧
    ∃ added, ((ConfluenceRenderer.image src t a st).2).attachments = st.attachments ++ added := by
  by_cases h : netloc src = ""
  · exact ⟨by simp [ConfluenceRenderer.image, h], by simp [ConfluenceRenderer.image, h],
      by simp [ConfluenceRenderer.image, h], [src], by simp [ConfluenceRenderer.image, h]⟩
  · exact ⟨by simp [ConfluenceRenderer.image, h], by simp [ConfluenceRenderer.image, h],
      by simp [ConfluenceRenderer.image, h], [], by simp [ConfluenceRenderer.image, h]⟩

lemma heading_frame (t : String) (l : Nat) (st : RenderState) :
    ((ConfluenceRenderer.heading t l st).2).attachments = st.attachments ∧
    ((ConfluenceRenderer.heading t l st).2).authors = st.authors := by
  cases hx : st.top_heading with
  | none =>
    by_cases hl : l = 1
    · subst hl
      exact ⟨by simp [ConfluenceRenderer.heading, hx], by simp [ConfluenceRenderer.heading, hx]⟩
    · exact ⟨by simp [ConfluenceRenderer.heading, hx, hl],
        by simp [ConfluenceRenderer.heading, hx, hl]⟩
  | some x =>
    exact ⟨by simp [ConfluenceRenderer.heading, hx], by simp [ConfluenceRenderer.heading, hx]⟩

lemma runEvent_frame (e : Event) (st : RenderState) :
    (runEvent e st).2.authors = st.authors ∧
    ∃ added, (runEvent e st).2.attachments = st.attachments ++ added := by
  cases e with
  | heading t l => exact ⟨(heading_frame t l st).2, [], by simp [runEvent, (heading_frame t l st).1]⟩
  | image s t a => exact ⟨(image_frame s t a st).2.2.1, (image_frame s t a st).2.2.2⟩
  | link h t c => exact ⟨rfl, [], by simp [runEvent]⟩
  | block_quote c => exact ⟨rfl, [], by simp [runEvent]⟩
  | block_code c l => exact ⟨rfl, [], by simp [runEvent]⟩

lemma runEvents_frame (es : List Event) (st : RenderState) :
    (runEvents es st).2.authors = st.authors ∧
    ∃ added, (runEvents es st).2.attachments = st.attachments ++ added := by
  induction es generalizing st with
  | nil => exact ⟨rfl, [], by simp [runEvents]⟩
  | cons e rest ih =>
    obtain ⟨ha1, d1, hd1⟩ := runEvent_frame e st
    obtain ⟨ha2, d2, hd2⟩ := ih (runEvent e st).2
    refine ⟨?_, d1 ++ d2, ?_⟩
    · show (runEvents rest (runEvent e st).2).2.authors = st.authors
      rw [ha2, ha1]
    · show (runEvents rest (runEvent e st).2).2.attachments = st.attachments ++ (d1 ++ d2)
      rw [hd2, hd1, List.append_assoc]

/-- C10: frame conditions of the renderer callbacks. `heading` never touches
`attachments` or `authors`; `image` never touches `has_toc`, `top_heading`
or `authors` and can only extend `attachments` at the end; `link`,
`block_quote` and `block_code` (hence `block_mermaid`, which `block_code`
calls) leave the whole state unchanged; and over any event sequence the
`authors` list is never mutated and the existing `attachments` entries are
never removed or reordered, only extended. `render_authors` and `layout`
assign no renderer field in the source and are embedded as functions with no
state output. -/
theorem C10_frameEffects :
    (∀ t l st, ((ConfluenceRenderer.heading t l st).2).attachments = st.attachments ∧
      ((ConfluenceRenderer.heading t l st).2).authors = st.authors) ∧
    (∀ src t a st, ((ConfluenceRenderer.image src t a st).2).has_toc = st.has_toc ∧
      ((ConfluenceRenderer.image src t a st).2).top_heading = st.top_heading ∧
      ((ConfluenceRenderer.image src t a st).2).authors = st.authors ∧
      ∃ added, ((ConfluenceRenderer.image src t a st).2).attachments = st.attachments ++ added) ∧
    (∀ h t c st, (runEvent (.link h t c) st).2 = st) ∧
    (∀ c st, (runEvent (.block_quote c) st).2 = st) ∧
    (∀ c l st, (runEvent (.block_code c l) st).2 = st) ∧
    (∀ es st, (runEvents es st).2.authors = st.authors ∧
      ∃ added, (runEvents es st).2.attachments = st.attachments ++ added) :=
  ⟨heading_frame, image_frame, fun _ _ _ _ => rfl, fun _ _ => rfl, fun _ _ _ => rfl,
    runEvents_frame⟩

lemma runEvents_top_some (es : List Event) (st : RenderState) (x : String)
    (h : st.top_heading = some x) :
    (runEvents es st).2.top_heading = some x := by
  induction es generalizing st with
  | nil => simpa [runEvents] using h
  | cons e rest ih =>
    show (runEvents rest (runEvent e st).2).2.top_heading = some x
    apply ih
    cases e with
    | heading t l => simp [runEvent, heading_some t l st x h, h]
    | image s t a => exact (image_frame s t a st).2.1.trans h
    | link ht tt ct => simpa [runEvent] using h
    | block_quote c => simpa [runEvent] using h
    | block_code c l => simpa [runEvent] using h

lemma runEvents_top_none (es : List Event) (st : RenderState)
    (h : st.top_heading = none) :
    (runEvents es st).2.top_heading = firstTopHeading es := by
  induction es generalizing st with
  | nil => simpa [runEvents, firstTopHeading] using h
  | cons e rest ih =>
    cases e with
    | heading t l =>
      by_cases hl : l = 1
      · subst hl
        show (runEvents rest (runEvent (.heading t 1) st).2).2.top_heading = _
        rw [show (runEvent (.heading t 1) st).2 =
            { st with has_toc := true, top_heading := some t } by
          simp [runEvent, heading_none_one t st h]]
        simp [firstTopHeading]
        exact runEvents_top_some rest _ t rfl
      · show (runEvents rest (runEvent (.heading t l) st).2).2.top_heading = _
        rw [show (runEvent (.heading t l) st).2 = { st with has_toc := true } by
          simp [runEvent, heading_none_other t l st h hl]]
        simp [firstTopHeading, hl]
        exact ih _ (by simpa using h)
    | image s t a =>
      show (runEvents rest (runEvent (.image s t a) st).2).2.top_heading = _
      simp [firstTopHeading]
      exact ih _ ((image_frame s t a st).2.1.trans h)
    | link ht tt ct =>
      show (runEvents rest (runEvent (.link ht tt ct) st).2).2.top_heading = _
      simp [firstTopHeading, runEvent]
      exact ih st h
    | block_quote c =>
      show (runEvents rest (runEvent (.block_quote c) st).2).2.top_heading = _
      simp [firstTopHeading, runEvent]
      exact ih st h
    | block_code c l =>
      show (runEvents rest (runEvent (.block_code c l) st).2).2.top_heading = _
      simp [firstTopHeading, runEvent]
      exact ih st h

/-- C3: the title returned by `convtoconf` is the front matter's `title`
value when the key is present, else the first level-1 heading captured from
the body, else `none`; an absent (`none`) front matter behaves exactly like
the empty mapping. -/
theorem C3_convtoconfTitle (body : List Event) (fm : Option FrontMatter) :
    (convtoconf body fm).2.2 =
      (match (fm.getD FrontMatter.empty).title with
        | some t => some t
        | none => firstTopHeading body) ∧
    convtoconf body none = convtoconf body (some FrontMatter.empty) := by
  constructor
  · cases htitle : (fm.getD FrontMatter.empty).title with
    | some t => simp [convtoconf, htitle]
    | none =>
      simp [convtoconf, htitle]
      exact runEvents_top_none body _ rfl
  · rfl

lemma str_append_empty (s : String) : s ++ "" = s := by
  apply str_ext
  simp [str_data_append, str_data_empty]

lemma pyReadlinesAux_split (xs ys : List Char) :
    ∀ acc, pyReadlinesAux acc (xs ++ '\n' :: ys) =
      pyReadlinesAux acc (xs ++ ['\n']) ++ pyReadlinesAux [] ys := by
  induction xs with
  | nil =>
    intro acc
    simp [pyReadlinesAux]
  | cons c xs ih =>
    intro acc
    by_cases h : c = '\n' <;> simp [pyReadlinesAux, h, ih]

lemma getLast_nl_decomp (l : List Char) (h : l.getLast? = some '\n') :
    ∃ xs, l = xs ++ ['\n'] := by
  induction l with
  | nil => simp [List.getLast?] at h
  | cons c rest ih =>
    cases rest with
    | nil =>
      simp [List.getLast?] at h
      exact ⟨[], by simp [h]⟩
    | cons d rest2 =>
      obtain ⟨xs, hxs⟩ := ih (by rwa [List.getLast?_cons_cons] at h)
      exact ⟨c :: xs, by simp [hxs]⟩

lemma pyReadlines_append (a b : String) (h : ∃ xs, a.data = xs ++ ['\n']) :
    pyReadlines (a ++ b) = pyReadlines a ++ pyReadlines b := by
  obtain ⟨xs, hxs⟩ := h
  unfold pyReadlines
  rw [str_data_append, hxs, List.append_assoc]
  simp only [List.singleton_append]
  rw [pyReadlinesAux_split, List.map_append]

lemma pyReadlines_boundary_cons (s : String) :
    pyReadlines ("---\n" ++ s) = "---\n" :: pyReadlines s := by
  rw [pyReadlines_append "---\n" s ⟨"---".data, rfl⟩]
  rfl

lemma pyReadlinesAux_join (l : List Char) :
    ∀ acc, (pyReadlinesAux acc l).join = acc.reverse ++ l := by
  induction l with
  | nil =>
    intro acc
    cases acc with
    | nil => simp [pyReadlinesAux]
    | cons x xs => simp [pyReadlinesAux]
  | cons c rest ih =>
    intro acc
    by_cases h : c = '\n' <;> simp [pyReadlinesAux, h, ih]

lemma concatStr_map_mk (ls : List (List Char)) :
    concatStr (ls.map (fun l => (⟨l⟩ : String))) = ⟨ls.join⟩ := by
  induction ls with
  | nil => rfl
  | cons l rest ih =>
    show (⟨l⟩ : String) ++ concatStr (rest.map _) = _
    rw [ih]
    apply str_ext
    simp [str_data_append]

lemma concat_readlines (s : String) : concatStr (pyReadlines s) = s := by
  unfold pyReadlines
  rw [concatStr_map_mk]
  apply str_ext
  simpa using pyReadlinesAux_join s.data []

lemma foldl_parseLine_yaml (L : List String) :
    ∀ st, st.in_yaml = true → (∀ l ∈ L, pyStrip l ≠ YAML_BOUNDARY) →
      L.foldl parseLine st =
        { raw_yaml := st.raw_yaml ++ concatStr L, markdown := st.markdown, in_yaml := true } := by
  induction L with
  | nil =>
    intro st h1 _
    obtain ⟨ry, md, iy⟩ := st
    simp only at h1
    subst h1
    simp [concatStr, str_append_empty]
  | cons l rest ih =>
    intro st h1 h2
    have hl := h2 l (by simp)
    have hstep : parseLine st l = { st with raw_yaml := st.raw_yaml ++ l } := by
      simp [parseLine, hl, h1]
    rw [List.foldl_cons, hstep, ih _ (by simp [h1]) (fun x hx => h2 x (by simp [hx]))]
    simp [concatStr, str_append_assoc]

lemma foldl_parseLine_md (L : List String) :
    ∀ st, st.in_yaml = false →
      L.foldl parseLine st =
        { raw_yaml := st.raw_yaml, markdown := st.markdown ++ concatStr L,
          in_yaml := false } := by
  induction L with
  | nil =>
    intro st h
    obtain ⟨ry, md, iy⟩ := st
    simp only at h
    subst h
    simp [concatStr, str_append_empty]
  | cons l rest ih =>
    intro st h
    have hstep : parseLine st l = { st with markdown := st.markdown ++ l } := by
      simp [parseLine, h]
    rw [List.foldl_cons, hstep, ih _ (by simp [h])]
    simp [concatStr, str_append_assoc]

lemma yamlLoad_marker (y : String) (h : ∀ l ∈ pyReadlines y, pyStrip l ≠ YAML_BOUNDARY) :
    yamlLoad ("---\n" ++ y) = yamlLoad y := by
  have hfy : ∀ x ∈ ((pyReadlines y).map pyStrip).filter (fun l => l ≠ ""), x ≠ "---" := by
    intro x hx
    obtain ⟨l, hl, hlx⟩ := List.mem_map.mp (List.mem_of_mem_filter hx)
    rw [← hlx]
    exact h l hl
  unfold yamlLoad
  rw [pyReadlines_boundary_cons]
  simp only [List.map_cons, List.filter_cons, show pyStrip "---\n" = "---" from rfl]
  cases hfy2 : ((pyReadlines y).map pyStrip).filter (fun l => l ≠ "") with
  | nil => simp [hfy2]
  | cons z zs =>
    have hz : z ≠ "---" := hfy z (by rw [hfy2]; exact List.mem_cons_self z zs)
    simp [hfy2, hz]

/-- C4 counterexample: for `Y = "title: Test\n"` and `B = "body\n"`, the
documents with zero and one leading boundary markers split identically, but
the document with two leading boundary markers does not: the second marker
closes the front matter while the buffer holds only the absorbed first
marker, so the front matter decodes to null and the YAML block, the closing
marker and the body all land in the body text. -/
theorem C4_boundary_counterexample :
    parse (mkDoc2 "title: Test\n" "body\n") ≠ parse (mkDoc0 "title: Test\n" "body\n") ∧
    parse (mkDoc0 "title: Test\n" "body\n") = (some [("title", "Test")], "body") ∧
    parse (mkDoc1 "title: Test\n" "body\n") = (some [("title", "Test")], "body") ∧
    parse (mkDoc2 "title: Test\n" "body\n") = (none, "title: Test\n---\nbody") := by
  refine ⟨?_, ?_, ?_, ?_⟩ <;> decide

/-- C4 amended: for a newline-terminated YAML block `Y` none of whose lines
strips to the boundary token, and any body `B`, the documents with zero and
one leading boundary markers both split to the decoded mapping of `Y` and
the trimmed `B`; but the document with two leading boundary markers splits
differently: its front matter decodes to null (the buffer holds only the
absorbed first marker when the second closes it) and the trimmed body is
`Y` followed by the closing marker line followed by `B`. -/
theorem C4_boundarySplit (y b : String)
    (h1 : y.data.getLast? = some '\n')
    (h2 : ∀ l ∈ pyReadlines y, pyStrip l ≠ YAML_BOUNDARY) :
    parse (mkDoc0 y b) = (yamlLoad y, pyStrip b) ∧
    parse (mkDoc1 y b) = (yamlLoad y, pyStrip b) ∧
    parse (mkDoc2 y b) = (none, pyStrip (y ++ ("---\n" ++ b))) := by
  have hyd := getLast_nl_decomp y.data h1
  have hyne : y ≠ "" := by
    intro he
    rw [he] at h1
    simp [str_data_empty] at h1
  have hstrip : pyStrip "---\n" = YAML_BOUNDARY := rfl
  have hry : pyReadlines (y ++ ("---\n" ++ b)) =
      pyReadlines y ++ ("---\n" :: pyReadlines b) := by
    rw [pyReadlines_append y _ hyd, pyReadlines_boundary_cons]
  have hbd : parseLine { raw_yaml := y, markdown := "", in_yaml := true } "---\n" =
      { raw_yaml := y, markdown := "", in_yaml := false } := by
    simp [parseLine, hstrip, hyne]
  have hfirst : parseLine { raw_yaml := "", markdown := "", in_yaml := true } "---\n" =
      { raw_yaml := "---\n", markdown := "", in_yaml := true } := by
    simp [parseLine, hstrip, str_empty_append]
  have hs0 : splitDoc (mkDoc0 y b) = { raw_yaml := y, markdown := b, in_yaml := false } := by
    unfold splitDoc mkDoc0
    rw [hry, List.foldl_append,
      foldl_parseLine_yaml (pyReadlines y) { raw_yaml := "", markdown := "", in_yaml := true }
        rfl h2,
      concat_readlines, str_empty_append, List.foldl_cons, hbd,
      foldl_parseLine_md (pyReadlines b) _ rfl, concat_readlines, str_empty_append]
  have hs1 : splitDoc (mkDoc1 y b) =
      { raw_yaml := "---\n" ++ y, markdown := b, in_yaml := false } := by
    unfold splitDoc mkDoc1
    rw [pyReadlines_boundary_cons, hry, List.foldl_cons, hfirst, List.foldl_append,
      foldl_parseLine_yaml (pyReadlines y)
        { raw_yaml := "---\n", markdown := "", in_yaml := true } rfl h2,
      concat_readlines, List.foldl_cons]
    rw [show parseLine { raw_yaml := "---\n" ++ y, markdown := "", in_yaml := true } "---\n" =
        { raw_yaml := "---\n" ++ y, markdown := "", in_yaml := false } by
      simp [parseLine, hstrip, str_ne_empty_append "---\n" y (by decide)]]
    rw [foldl_parseLine_md (pyReadlines b) _ rfl, concat_readlines, str_empty_append]
  have hs2 : splitDoc (mkDoc2 y b) =
      { raw_yaml := "---\n", markdown := y ++ ("---\n" ++ b), in_yaml := false } := by
    unfold splitDoc mkDoc2
    rw [pyReadlines_boundary_cons, pyReadlines_boundary_cons, List.foldl_cons, hfirst,
      List.foldl_cons]
    rw [show parseLine { raw_yaml := "---\n", markdown := "", in_yaml := true } "---\n" =
        { raw_yaml := "---\n", markdown := "", in_yaml := false } by
      simp [parseLine, hstrip, show ("---\n" : String) ≠ "" by decide]]
    rw [foldl_parseLine_md (pyReadlines (y ++ ("---\n" ++ b))) _ rfl, concat_readlines,
      str_empty_append]
  refine ⟨?_, ?_, ?_⟩
  · unfold parse
    rw [hs0]
  · unfold parse
    rw [hs1]
    simp [yamlLoad_marker y h2]
  · unfold parse
    rw [hs2]
    simp [show yamlLoad "---\n" = none from rfl]

/-- C4 witness: the amended split theorem applied at a concrete document. -/
theorem C4_boundarySplit_witness :
    parse (mkDoc0 "title: Test\n" "x\n") = (yamlLoad "title: Test\n", pyStrip "x\n") ∧
    parse (mkDoc1 "title: Test\n" "x\n") = (yamlLoad "title: Test\n", pyStrip "x\n") ∧
    parse (mkDoc2 "title: Test\n" "x\n") =
      (none, pyStrip ("title: Test\n" ++ ("---\n" ++ "x\n"))) :=
  C4_boundarySplit "title: Test\n" "x\n" (by decide) (by decide)

end MdToConf
